import Mathlib

/-!
Verification development for the job_scout_ai repository.

The Python sources are shallowly embedded as pure Lean functions.
External effects are made explicit:
* the file-based cache (`cache_manager.py`) becomes a value of type
  `CacheState` threaded through the operations, with the current wall
  clock passed as an `Int` parameter;
* the SQLite dedup store (`database.py`, tables `applications` and
  `discovered_jobs` as queried by `job_seen` / `add_discovered_job`)
  becomes a list of already-seen URLs;
* HTTP responses of the JSearch API become an explicit list of
  `PageResponse` values, one per requested page;
* the AI providers (Gemini / OpenAI clients in `intelligence.py`)
  become optional oracle functions from the prompt to either a text
  response or an error message, and `json.loads` composed with the
  markdown-fence stripping becomes an uninterpreted parameter
  `parse : String → Except String Json`;
* Python JSON values are modelled by the inductive type `Json`,
  with Python truthiness modelled by `truthy`.
-/

namespace JobScout

/-- Model of a Python JSON value (output of `json.loads`). Numbers are
modelled as integers, which covers every value the claims touch. -/
inductive Json where
  | null : Json
  | bool (b : Bool) : Json
  | num (n : Int) : Json
  | str (s : String) : Json
  | arr (elems : List Json) : Json
  | obj (fields : List (String × Json)) : Json
deriving Repr

/-- Python truthiness (`if value:`) of a JSON value: `None`, `False`,
`0`, `""`, `[]` and an empty dict are falsy, everything else truthy. -/
def truthy : Json → Bool
  | Json.null => false
  | Json.bool b => b
  | Json.num n => !(n == 0)
  | Json.str s => !s.isEmpty
  | Json.arr elems => !elems.isEmpty
  | Json.obj fields => !fields.isEmpty

/-- Truthiness of an optional value (`cached_data = cache.get(k); if cached_data:`):
`None` (no value) is falsy. -/
def truthyOpt : Option Json → Bool
  | none => false
  | some v => truthy v

/-- Dictionary read, `d.get(k)`: the binding of the first field named `k`. -/
def jget (j : Json) (k : String) : Option Json :=
  match j with
  | Json.obj fields => (fields.find? (fun p => p.1 == k)).map (fun p => p.2)
  | _ => none

/-- CPython dict assignment `d[k] = v` on an association list: if the key is
present its binding is replaced in place, otherwise the pair is appended. -/
def updAssoc {α : Type} : List (String × α) → String → α → List (String × α)
  | [], k, v => [(k, v)]
  | (k1, v1) :: rest, k, v =>
    if k1 == k then (k, v) :: rest else (k1, v1) :: updAssoc rest k v

/-- Dictionary write on a JSON object (`result["queries"] = ...`);
non-objects are returned unchanged (the callers only apply it to objects). -/
def jset (j : Json) (k : String) (v : Json) : Json :=
  match j with
  | Json.obj fields => Json.obj (updAssoc fields k v)
  | other => other

/-- Whether the character list `hay` starts with `needle`. -/
def listStartsWith : List Char → List Char → Bool
  | [], _ => true
  | _ :: _, [] => false
  | a :: as, b :: bs => a == b && listStartsWith as bs

/-- Whether `needle` occurs contiguously inside `hay`. -/
def listHasSub (needle : List Char) : List Char → Bool
  | [] => needle.isEmpty
  | c :: rest => listStartsWith needle (c :: rest) || listHasSub needle rest

/-- Python substring test `needle in hay` on strings. -/
def strContains (hay needle : String) : Bool :=
  listHasSub needle.data hay.data

/-! ## Response cache (`cache_manager.py`)

`CacheManager` stores each value in a file keyed by the cache key,
together with the wall-clock time of the write.  `get` re-reads the
entry and refuses to return it once its age exceeds `expiry_seconds`.
The file system is modelled as a list of entries; a write prepends the
new entry, which shadows any older entry with the same key exactly as
overwriting the file would. -/

/-- One stored cache entry: `{"timestamp": ..., "value": ...}` in the
file chosen by the key (`CacheManager.set`). -/
structure CacheEntry where
  key : String
  timestamp : Int
  value : Json

/-- The state of the on-disk cache directory. -/
abbrev CacheState := List CacheEntry

/-- The stored `(timestamp, value)` pair for a key, if any
(reading the file `_get_cache_path(key)`). -/
def cacheLookup (st : CacheState) (k : String) : Option (Int × Json) :=
  (st.find? (fun e => e.key == k)).map (fun e => (e.timestamp, e.value))

/-- Default `expiry_seconds` of `CacheManager.__init__` (24 hours). -/
def defaultExpirySeconds : Int := 86400

/-- `CacheManager.get` at wall-clock time `now`: absent if no entry
exists, or if `now - timestamp > expiry`; the stored value otherwise. -/
def cacheGet (st : CacheState) (now expiry : Int) (k : String) : Option Json :=
  match cacheLookup st k with
  | none => none
  | some (ts, v) => if expiry < now - ts then none else some v

/-- `CacheManager.set` at wall-clock time `now`: overwrite the entry for
`k` with the fresh timestamp. -/
def cacheSet (st : CacheState) (now : Int) (k : String) (v : Json) : CacheState :=
  { key := k, timestamp := now, value := v } :: st

/-! ## Local scorer (`JobIntelligence.calculate_local_score`) -/

/-- A word character of the regex `\w` (ASCII fragment): letters,
digits and the underscore. -/
def isWordChar (c : Char) : Bool := c.isAlphanum || c == '_'

/-- Splits a character list into the maximal runs of word characters,
i.e. the matches of `re.findall(r'\w+', ...)`.  The second argument
accumulates the current run in reverse. -/
def tokenizeAux : List Char → List Char → List String
  | [], acc => if acc.isEmpty then [] else [String.mk acc.reverse]
  | c :: cs, acc =>
    if isWordChar c then tokenizeAux cs (c :: acc)
    else if acc.isEmpty then tokenizeAux cs []
    else String.mk acc.reverse :: tokenizeAux cs []

/-- The token set of a text: `set(re.findall(r'\w+', text.lower()))`.
Lowercasing is applied per character to the character list of the text
(identical to `String.toLower`, but stated in a kernel-reducible form). -/
def getTokens (s : String) : Finset String :=
  (tokenizeAux (s.data.map Char.toLower) []).toFinset

/-- The hand-picked `domain_keywords` set of `calculate_local_score`. -/
def domainKeywords : Finset String :=
  (["safety", "functional", "iso", "sil", "asil", "avionics",
    "embedded", "battery", "hardware", "software"] : List String).toFinset

/-- Raw component sum of the local scorer on token sets: title overlap
(tokens longer than 3 characters, 20 points each, capped at 60), plus
description overlap (tokens longer than 4 characters, 4 points each,
capped at 40), plus 5 points per shared domain keyword. -/
def rawLocalSum (res title desc : Finset String) : Nat :=
  let titleHits := title ∩ res
  let titleScore := min 60 ((titleHits.filter (fun t => 3 < t.length)).card * 20)
  let techHits := desc ∩ res
  let meaningfulTech := techHits.filter (fun t => 4 < t.length)
  let techScore := min 40 (meaningfulTech.card * 4)
  let domainHits := ((title ∪ desc) ∩ domainKeywords) ∩ res
  titleScore + techScore + domainHits.card * 5

/-- The token-set part of `calculate_local_score`: 0 on an empty title
token set, otherwise the raw sum floored to 5 below 10 and capped at 95. -/
def localScoreSets (res title desc : Finset String) : Nat :=
  if title = ∅ then 0
  else if rawLocalSum res title desc < 10 then 5
  else min 95 (rawLocalSum res title desc)

/-- `JobIntelligence.calculate_local_score(resume_text, job_title, job_desc)`. -/
def calculate_local_score (resume_text job_title job_desc : String) : Nat :=
  if resume_text.isEmpty || job_title.isEmpty then 0
  else localScoreSets (getTokens resume_text) (getTokens job_title) (getTokens job_desc)

/-! ## Match analyzer and profile extraction (`intelligence.py`)

`JobIntelligence` holds an optional Gemini client (`self.client`) and an
optional OpenAI backup client (`self.openai_client`).  Each configured
client is modelled as an oracle from the prompt to either the response
text or the raised exception's message.  `hashlib.md5(...).hexdigest()`
is modelled by an uninterpreted parameter `hash : String → String`
applied to exactly the string the source hashes, and the composite of
the markdown-fence stripping and `json.loads` by an uninterpreted
parameter `parse : String → Except String Json` (the error carries
`str(e)` of the raised exception). -/

/-- The configured AI clients: `none` means the client was never
initialized (missing key / failed init). -/
structure ProviderEnv where
  gemini : Option (String → Except String String)
  openai : Option (String → Except String String)

/-- Message of the exception raised by `_call_ai` when it runs out of
providers. -/
def noProvidersMsg : String :=
  "No AI providers available (Gemini/OpenAI failed or not configured)."

/-- `JobIntelligence._call_ai(prompt)`: try Gemini, fall through to the
OpenAI backup on failure, raise when no provider is left.  The second
component counts how many provider calls were made. -/
def call_ai (env : ProviderEnv) (prompt : String) : Except String String × Nat :=
  match env.gemini with
  | some g =>
    match g prompt with
    | Except.ok text => (Except.ok text, 1)
    | Except.error _ =>
      match env.openai with
      | some o => (o prompt, 2)
      | none => (Except.error noProvidersMsg, 1)
  | none =>
    match env.openai with
    | some o => (o prompt, 1)
    | none => (Except.error noProvidersMsg, 0)

/-- The prompt built by `analyze_match` (resume truncated to 3500
characters, job description to 1500). -/
def matchPrompt (resume_text job_description : String) : String :=
  "Act as a Lead AI Recruiter. Rank the match between this Resume and Job.\n" ++
  "RESUME: " ++ resume_text.take 3500 ++ "\n" ++
  "JOB: " ++ job_description.take 1500 ++ "\n\n" ++
  "Return JSON ONLY: \x7b \"score\": 0-100, \"verdict\": \"brief explanation\", " ++
  "\"strengths\": [\"s1\", \"s2\", \"s3\"], \"gaps\": [\"g1\", \"g2\", \"g3\"] \x7d"

/-- Cache key of `analyze_match`: `f"match_v4_{md5(resume+job).hexdigest()}"`. -/
def matchKey (hash : String → String) (resume_text job_description : String) : String :=
  "match_v4_" ++ hash (resume_text ++ job_description)

/-- The result `analyze_match` returns when neither client is configured. -/
def noProviderMatchResult : Json :=
  Json.obj [("score", Json.num 50),
            ("verdict", Json.str "Intelligence engine not active."),
            ("strengths", Json.arr []),
            ("gaps", Json.arr [])]

/-- The verdict string built in the `except` branch of `analyze_match`
from the message `e` of the caught exception. -/
def matchErrVerdict (e : String) : String :=
  if strContains e "404" then
    "AI Model Mismatch: The model ID in your region/version might be different. I am attempting a live fix."
  else
    "AI Matcher Error: " ++ e.take 100

/-- The result built in the `except` branch of `analyze_match`. -/
def matchErrResult (e : String) : Json :=
  Json.obj [("score", Json.num 0),
            ("verdict", Json.str (matchErrVerdict e)),
            ("strengths", Json.arr [Json.str "Wait for retry"]),
            ("gaps", Json.arr [Json.str "API Quota / Model ID"])]

/-- The cache-miss part of `analyze_match` (everything after the
`if cached_data:` early return).  Returns the result record, the updated
cache state and the number of provider calls made. -/
def analyzeMatchMiss (parse : String → Except String Json) (env : ProviderEnv)
    (st : CacheState) (now : Int) (key resume_text job_description : String) :
    Json × CacheState × Nat :=
  if env.gemini.isNone && env.openai.isNone then
    (noProviderMatchResult, st, 0)
  else
    match (call_ai env (matchPrompt resume_text job_description)).1 with
    | Except.ok text =>
      match parse text with
      | Except.ok result =>
        (result, cacheSet st now key result,
         (call_ai env (matchPrompt resume_text job_description)).2)
      | Except.error e =>
        (matchErrResult e, st, (call_ai env (matchPrompt resume_text job_description)).2)
    | Except.error e =>
      (matchErrResult e, st, (call_ai env (matchPrompt resume_text job_description)).2)

/-- `JobIntelligence.analyze_match(resume_text, job_description)`.
The triple is (returned record, cache state afterwards, provider calls
made during this invocation). -/
def analyze_match (hash : String → String) (parse : String → Except String Json)
    (env : ProviderEnv) (st : CacheState) (now : Int)
    (resume_text job_description : String) : Json × CacheState × Nat :=
  match cacheGet st now defaultExpirySeconds (matchKey hash resume_text job_description) with
  | some cached =>
    if truthy cached then (cached, st, 0)
    else analyzeMatchMiss parse env st now (matchKey hash resume_text job_description)
      resume_text job_description
  | none =>
    analyzeMatchMiss parse env st now (matchKey hash resume_text job_description)
      resume_text job_description

/-- The prompt built by `extract_search_profile` (resume truncated to
4000 characters). -/
def profilePrompt (resume_text : String) : String :=
  "Analyze this resume: " ++ resume_text.take 4000 ++ "\n" ++
  "1. Identify expertise.\n2. Provide exactly 6 seeker queries for USA.\n3. Determine location.\n" ++
  "Return JSON: \x7b \"queries\": [\"q1\", \"q2\", ...], \"location\": \"...\", \"primary_title\": \"...\" \x7d"

/-- Cache key of `extract_search_profile`: `f"profile_v4_{md5(resume).hexdigest()}"`. -/
def profileKey (hash : String → String) (resume_text : String) : String :=
  "profile_v4_" ++ hash resume_text

/-- The result `extract_search_profile` returns when no client is configured. -/
def noProviderProfile : Json :=
  Json.obj [("queries", Json.arr [Json.str "Senior Functional Safety Engineer",
                                  Json.str "Safety Architect"]),
            ("location", Json.str "USA")]

/-- The result of `extract_search_profile`'s `except` branch. -/
def profileErrResult : Json :=
  Json.obj [("queries", Json.arr [Json.str "Senior Functional Safety Engineer",
                                  Json.str "Safety Systems Engineer"]),
            ("location", Json.str "USA")]

/-- The repair condition of `extract_search_profile`:
`not result.get("queries") or not isinstance(result["queries"], list)`. -/
def queriesBad (result : Json) : Bool :=
  match jget result "queries" with
  | none => true
  | some v =>
    if truthy v then
      match v with
      | Json.arr _ => false
      | _ => true
    else true

/-- The replacement entry: `result.get("primary_title") or "Senior Functional Safety Engineer"`. -/
def queriesFallback (result : Json) : Json :=
  match jget result "primary_title" with
  | some pt => if truthy pt then pt else Json.str "Senior Functional Safety Engineer"
  | none => Json.str "Senior Functional Safety Engineer"

/-- The `queries` repair of `extract_search_profile`: when
`result.get("queries")` is falsy or not a list, replace it with the
one-element list `[result.get("primary_title") or default]`. -/
def fixQueries (result : Json) : Json :=
  if queriesBad result then jset result "queries" (Json.arr [queriesFallback result])
  else result

/-- The cache-miss part of `extract_search_profile`.  A parsed result
that is not a dict raises `AttributeError` at `result.get("queries")`,
which the `except` branch absorbs, hence the non-object case also yields
`profileErrResult`. -/
def extractProfileMiss (parse : String → Except String Json) (env : ProviderEnv)
    (st : CacheState) (now : Int) (key resume_text : String) :
    Json × CacheState × Nat :=
  if env.gemini.isNone && env.openai.isNone then
    (noProviderProfile, st, 0)
  else
    match (call_ai env (profilePrompt resume_text)).1 with
    | Except.ok text =>
      match parse text with
      | Except.ok result =>
        match result with
        | Json.obj fields =>
          (fixQueries (Json.obj fields), cacheSet st now key (fixQueries (Json.obj fields)),
           (call_ai env (profilePrompt resume_text)).2)
        | _ => (profileErrResult, st, (call_ai env (profilePrompt resume_text)).2)
      | Except.error _ => (profileErrResult, st, (call_ai env (profilePrompt resume_text)).2)
    | Except.error _ => (profileErrResult, st, (call_ai env (profilePrompt resume_text)).2)

/-- `JobIntelligence.extract_search_profile(resume_text)`. -/
def extract_search_profile (hash : String → String)
    (parse : String → Except String Json) (env : ProviderEnv)
    (st : CacheState) (now : Int) (resume_text : String) :
    Json × CacheState × Nat :=
  match cacheGet st now defaultExpirySeconds (profileKey hash resume_text) with
  | some cached =>
    if truthy cached then (cached, st, 0)
    else extractProfileMiss parse env st now (profileKey hash resume_text) resume_text
  | none => extractProfileMiss parse env st now (profileKey hash resume_text) resume_text

/-- Whether a profile record has a non-empty `queries` list. -/
def queriesOK (j : Json) : Bool :=
  match jget j "queries" with
  | some (Json.arr (_ :: _)) => true
  | _ => false

/-! ## Structured-API fetcher (`job_api_search.py`)

`JobAPISearch.search_jobs` guards on the API key, then executes
`db = database.get_db()` — but `job_api_search.py` imports only `os`,
`logging`, `requests`, `typing`, `dotenv` and `config`, never
`database`, so that line raises `NameError: name 'database' is not
defined` on every keyed call, before any page is requested.  The model
therefore returns an `Except`: `Except.error` carries the exception
message of a keyed call, and only the key-less early return produces a
value.  The page loop of lines 44–94 (unreachable as the module
stands) is still embedded: the HTTP responses of the requested pages
are a list of `PageResponse` values, the dedup store (`job_seen` /
`add_discovered_job` over the `applications` and `discovered_jobs`
tables) is the list of already-seen URLs, and every store interaction
is recorded in a trace of `DedupCall` values. -/

/-- One raw JSearch record (`data` element); each field is `none` when
the key is absent from the JSON object. -/
structure RawJob where
  applyLink : Option String
  googleLink : Option String
  jobTitle : Option String
  employerName : Option String
  jobCity : Option String
  jobDescription : Option String
  employmentType : Option String
  postedAt : Option String
deriving DecidableEq, Repr

/-- The canonical posting record built by the fetchers (standardized
dict; fields absent from a given source are empty strings). -/
structure Posting where
  title : String
  company : String
  location : String
  url : String
  description : String
  platform : String
  jobType : String
  postedDate : String
deriving DecidableEq, Repr

/-- The URL chosen for a raw record:
`job.get("job_apply_link") or job.get("job_google_link", "")`
(Python `or` falls through on a missing or empty apply link). -/
def rawUrl (j : RawJob) : String :=
  let a := j.applyLink.getD ""
  if a.isEmpty then j.googleLink.getD "" else a

/-- The `standardized_job` dict built for an unseen record (the
`location` parameter is the default for a missing `job_city`). -/
def standardize (location : String) (j : RawJob) (url : String) : Posting :=
  { title := j.jobTitle.getD ""
    company := j.employerName.getD ""
    location := j.jobCity.getD location
    url := url
    description := j.jobDescription.getD ""
    platform := "JSearch API"
    jobType := j.employmentType.getD ""
    postedDate := j.postedAt.getD "" }

/-- One interaction with the dedup store: a `job_seen` query or an
`add_discovered_job` write. -/
inductive DedupCall where
  | seenQuery (url : String) : DedupCall
  | markSeen (url : String) : DedupCall
deriving DecidableEq, Repr

/-- The HTTP answer obtained for one requested page: a status code with
the `data` list (relevant only for status 200), or a raised network /
parsing exception. -/
inductive PageResponse where
  | http (status : Nat) (jobs : List RawJob) : PageResponse
  | failure : PageResponse
deriving Repr

/-- The per-record loop of a 200 page (`job_api_search.py` lines
60–80): compute the URL, skip the record when `db.job_seen(url)`,
otherwise append the standardized posting and mark the URL seen
immediately.  Arguments: records, seen set, accumulated postings,
accumulated dedup-store trace. -/
def processJobs (location : String) :
    List RawJob → List String → List Posting → List DedupCall →
    List Posting × List String × List DedupCall
  | [], db, acc, tr => (acc, db, tr)
  | j :: js, db, acc, tr =>
    if rawUrl j ∈ db then
      processJobs location js db acc (tr ++ [DedupCall.seenQuery (rawUrl j)])
    else
      processJobs location js (rawUrl j :: db)
        (acc ++ [standardize location j (rawUrl j)])
        ((tr ++ [DedupCall.seenQuery (rawUrl j)]) ++ [DedupCall.markSeen (rawUrl j)])

/-- The page loop of `search_jobs` (lines 44–94, dead code while the
`database` import is missing): a 200 page is processed, a 429 answer
breaks out of the loop, any other status skips the page, and a raised
exception also breaks out (the `except` clause ends the loop). -/
def searchJobsLoop (location : String) :
    List PageResponse → List String → List Posting → List DedupCall →
    List Posting × List String × List DedupCall
  | [], db, acc, tr => (acc, db, tr)
  | PageResponse.failure :: _, db, acc, tr => (acc, db, tr)
  | PageResponse.http status jobs :: rest, db, acc, tr =>
    if status = 200 then
      searchJobsLoop location rest (processJobs location jobs db acc tr).2.1
        (processJobs location jobs db acc tr).1 (processJobs location jobs db acc tr).2.2
    else if status = 429 then (acc, db, tr)
    else searchJobsLoop location rest db acc tr

/-- The message of the exception raised by `db = database.get_db()`:
the module never imports `database`, so the name lookup fails. -/
def nameErrorDatabase : String := "NameError: name 'database' is not defined"

/-- `JobAPISearch.search_jobs`: without an API key it returns the empty
list before touching the store; with a key it raises `NameError` at
`db = database.get_db()` — before the page loop and outside the
per-page `try` — so no page is ever requested.  A successful value is
(returned postings, seen set afterwards, dedup-store trace). -/
def search_jobs (hasKey : Bool) (location : String) (pages : List PageResponse)
    (db : List String) : Except String (List Posting × List String × List DedupCall) :=
  if hasKey then Except.error nameErrorDatabase
  else Except.ok ([], db, [])

/-- The inner dedup filter of `JobAggregator.search_all_platforms`
(`job_scrapers.py` lines 315–318; the `database` module is imported
there, so this loop does run): for each posting returned by an
HTML-scrape fetcher, query `db.job_seen(job['url'])`, and when unseen
append the posting to the result and record the URL via
`db.add_discovered_job`.  No emptiness check is applied to the URL. -/
def aggregatorFilterJobs :
    List Posting → List String → List Posting → List DedupCall →
    List Posting × List String × List DedupCall
  | [], db, acc, tr => (acc, db, tr)
  | j :: js, db, acc, tr =>
    if j.url ∈ db then
      aggregatorFilterJobs js db acc (tr ++ [DedupCall.seenQuery j.url])
    else
      aggregatorFilterJobs js (j.url :: db) (acc ++ [j])
        ((tr ++ [DedupCall.seenQuery j.url]) ++ [DedupCall.markSeen j.url])

/-! ## URL-keyed collapses (`job_scrapers.search_jobs` and
`job_api_search.search_multiple_titles`)

Both module-level helpers concatenate the postings of all
(title, location) searches and then collapse them by URL.
`job_scrapers.search_jobs` uses the dict comprehension
`{job['url']: job for job in all_jobs if job.get('url')}` — in CPython
a later posting with the same URL overwrites the stored value while the
key keeps its original position.  `search_multiple_titles` instead
inserts only if the URL is new (`if url and url not in unique_jobs`).
Both return `list(unique_jobs.values())`. -/

/-- Dict construction of `job_scrapers.search_jobs`: postings with an
empty URL are skipped, every other posting is assigned into the dict
(overwriting in place). -/
def scrapersCollapseDict : List Posting → List (String × Posting) → List (String × Posting)
  | [], d => d
  | j :: rest, d =>
    if j.url.isEmpty then scrapersCollapseDict rest d
    else scrapersCollapseDict rest (updAssoc d j.url j)

/-- The URL-keyed collapse of `job_scrapers.search_jobs` applied to the
concatenated postings: `list({job['url']: job for job in all_jobs if job.get('url')}.values())`. -/
def jobScrapersDedup (all_jobs : List Posting) : List Posting :=
  (scrapersCollapseDict all_jobs []).map (fun p => p.2)

/-- Dict construction of `search_multiple_titles`: a posting is inserted
only when its URL is non-empty and not yet a key. -/
def apiCollapseDict : List Posting → List (String × Posting) → List (String × Posting)
  | [], d => d
  | j :: rest, d =>
    if j.url.isEmpty then apiCollapseDict rest d
    else
      match d.find? (fun p => p.1 == j.url) with
      | some _ => apiCollapseDict rest d
      | none => apiCollapseDict rest (d ++ [(j.url, j)])

/-- The URL-keyed collapse of `search_multiple_titles` applied to the
concatenated postings. -/
def searchMultipleTitlesDedup (all_jobs : List Posting) : List Posting :=
  (apiCollapseDict all_jobs []).map (fun p => p.2)

/-- Well-formedness of the URL-keyed dicts built by the collapses: keys
are pairwise distinct, every stored posting sits under its own URL, and
no key is the empty string. -/
def GoodDict (d : List (String × Posting)) : Prop :=
  (d.map Prod.fst).Nodup ∧ ∀ p ∈ d, p.2.url = p.1 ∧ p.1 ≠ ""

/-! ## Concrete instances used by counterexamples and witnesses -/

/-- A hash oracle instance (any function works; the identity is used
for concrete runs). -/
def idHash : String → String := fun s => s

/-- A parse oracle that always fails. -/
def parseFail : String → Except String Json := fun _ => Except.error "boom"

/-- A parse oracle returning the empty JSON object — parseable but
falsy under Python truthiness. -/
def parseEmptyObj : String → Except String Json := fun _ => Except.ok (Json.obj [])

/-- A parse oracle returning a profile whose `queries` list is a
non-empty list of non-strings. -/
def parseNumQueries : String → Except String Json :=
  fun _ => Except.ok (Json.obj [("queries", Json.arr [Json.num 1]),
                                ("location", Json.str "USA")])

/-- An environment with no configured AI client. -/
def envNone : ProviderEnv := { gemini := none, openai := none }

/-- An environment whose Gemini client always answers `"resp"`. -/
def envGeminiOnly : ProviderEnv :=
  { gemini := some (fun _ => Except.ok "resp"), openai := none }

/-- An environment whose only configured client (Gemini) always fails. -/
def envGeminiFail : ProviderEnv :=
  { gemini := some (fun _ => Except.error "gemini down"), openai := none }

/-- A parse oracle returning a truthy (non-empty) JSON object. -/
def parseGoodObj : String → Except String Json :=
  fun _ => Except.ok (Json.obj [("score", Json.num 88)])

/-- A raw JSearch record carrying neither an apply link nor a Google
link, so its computed URL is empty. -/
def noLinkJob : RawJob :=
  { applyLink := none, googleLink := none, jobTitle := some "Safety Engineer",
    employerName := some "Acme", jobCity := none,
    jobDescription := some "ISO 26262", employmentType := none, postedAt := none }

/-- A posting with URL `"u"` and title `"A"`, all other fields empty. -/
def postingA : Posting :=
  { title := "A", company := "", location := "", url := "u",
    description := "", platform := "", jobType := "", postedDate := "" }

/-- A posting with the same URL `"u"` but title `"B"`. -/
def postingB : Posting :=
  { title := "B", company := "", location := "", url := "u",
    description := "", platform := "", jobType := "", postedDate := "" }

/-- A scraped posting with an empty URL, as the Indeed scraper produces
when a job card carries no `data-jk` id (`job_scrapers.py` line 186). -/
def emptyUrlPosting : Posting :=
  { title := "Safety Engineer", company := "Acme", location := "Remote", url := "",
    description := "", platform := "Indeed", jobType := "", postedDate := "" }

/-- Keys starting with the `profile_v4_` cache-key namespace of
`extract_search_profile`. -/
def isProfileKey (k : String) : Bool :=
  listStartsWith ("profile_v4_".data) k.data

/-! # Helper lemmas -/

theorem cacheLookup_cacheSet_self (st : CacheState) (now : Int) (k : String) (v : Json) :
    cacheLookup (cacheSet st now k v) k = some (now, v) := by
  simp [cacheLookup, cacheSet, List.find?]

theorem cacheGet_cacheSet_fresh (st : CacheState) (now tget expiry : Int) (k : String)
    (v : Json) (h : tget - now ≤ expiry) :
    cacheGet (cacheSet st now k v) tget expiry k = some v := by
  simp [cacheGet, cacheLookup_cacheSet_self, not_lt.mpr h]

theorem cacheGet_cacheSet_stale (st : CacheState) (now tget expiry : Int) (k : String)
    (v : Json) (h : expiry < tget - now) :
    cacheGet (cacheSet st now k v) tget expiry k = none := by
  simp [cacheGet, cacheLookup_cacheSet_self, h]

theorem cacheGet_of_lookup_none (st : CacheState) (now expiry : Int) (k : String)
    (h : cacheLookup st k = none) : cacheGet st now expiry k = none := by
  simp [cacheGet, h]

theorem rawLocalSum_mono {R R' T T' D D' : Finset String}
    (hR : R ⊆ R') (hT : T ⊆ T') (hD : D ⊆ D') :
    rawLocalSum R T D ≤ rawLocalSum R' T' D' := by
  unfold rawLocalSum
  have h1 : min 60 (((T ∩ R).filter (fun t => 3 < t.length)).card * 20)
      ≤ min 60 (((T' ∩ R').filter (fun t => 3 < t.length)).card * 20) :=
    min_le_min (le_refl 60)
      (mul_le_mul_right'
        (Finset.card_le_card
          (Finset.filter_subset_filter _ (Finset.inter_subset_inter hT hR))) 20)
  have h2 : min 40 (((D ∩ R).filter (fun t => 4 < t.length)).card * 4)
      ≤ min 40 (((D' ∩ R').filter (fun t => 4 < t.length)).card * 4) :=
    min_le_min (le_refl 40)
      (mul_le_mul_right'
        (Finset.card_le_card
          (Finset.filter_subset_filter _ (Finset.inter_subset_inter hD hR))) 4)
  have h3 : (((T ∪ D) ∩ domainKeywords) ∩ R).card * 5
      ≤ (((T' ∪ D') ∩ domainKeywords) ∩ R').card * 5 :=
    mul_le_mul_right'
      (Finset.card_le_card
        (Finset.inter_subset_inter
          (Finset.inter_subset_inter (Finset.union_subset_union hT hD) (le_refl _)) hR)) 5
  exact Nat.add_le_add (Nat.add_le_add h1 h2) h3

theorem localScoreStep_mono {x y : Nat} (h : x ≤ y) :
    (if x < 10 then 5 else min 95 x) ≤ (if y < 10 then 5 else min 95 y) := by
  split_ifs with h1 h2 h2
  · exact le_refl 5
  · exact le_min (by omega) (by omega)
  · omega
  · exact min_le_min (le_refl 95) h

theorem localScoreSets_mono {R R' T T' D D' : Finset String}
    (hR : R ⊆ R') (hT : T ⊆ T') (hD : D ⊆ D') :
    localScoreSets R T D ≤ localScoreSets R' T' D' := by
  unfold localScoreSets
  by_cases hT0 : T = ∅
  · simp [hT0]
  · have hT0' : T' ≠ ∅ := by
      intro hc
      exact hT0 (Finset.subset_empty.mp (hc ▸ hT))
    simp only [hT0, hT0', if_false]
    exact localScoreStep_mono (rawLocalSum_mono hR hT hD)

theorem localScoreSets_le_95 (R T D : Finset String) : localScoreSets R T D ≤ 95 := by
  unfold localScoreSets
  split_ifs with h1 h2
  · omega
  · omega
  · exact min_le_left 95 _

theorem updAssoc_nil {α : Type} (k : String) (v : α) : updAssoc [] k v = [(k, v)] := rfl

theorem updAssoc_cons_eq {α : Type} {k1 k : String} (v1 : α) (rest : List (String × α))
    (v : α) (h : k1 = k) : updAssoc ((k1, v1) :: rest) k v = (k, v) :: rest := by
  simp [updAssoc, h]

theorem updAssoc_cons_ne {α : Type} {k1 k : String} (v1 : α) (rest : List (String × α))
    (v : α) (h : k1 ≠ k) :
    updAssoc ((k1, v1) :: rest) k v = (k1, v1) :: updAssoc rest k v := by
  simp [updAssoc, beq_eq_false_iff_ne.mpr h]

theorem find?_updAssoc_self {α : Type} (l : List (String × α)) (k : String) (v : α) :
    (updAssoc l k v).find? (fun p => p.1 == k) = some (k, v) := by
  induction l with
  | nil => simp [updAssoc, List.find?]
  | cons p rest ih =>
    obtain ⟨k1, v1⟩ := p
    by_cases h : k1 = k
    · simp [updAssoc, h, List.find?]
    · simp [updAssoc, beq_eq_false_iff_ne.mpr h, List.find?, ih]

theorem find?_updAssoc_ne {α : Type} (l : List (String × α)) (k k' : String) (v : α)
    (h : k' ≠ k) :
    (updAssoc l k v).find? (fun p => p.1 == k') = l.find? (fun p => p.1 == k') := by
  induction l with
  | nil => simp [updAssoc, List.find?, beq_eq_false_iff_ne.mpr h.symm]
  | cons p rest ih =>
    obtain ⟨k1, v1⟩ := p
    by_cases hk : k1 = k
    · subst hk
      simp [updAssoc, List.find?, beq_eq_false_iff_ne.mpr h.symm,
        beq_eq_false_iff_ne.mpr (fun hc => h hc.symm)]
    · simp only [updAssoc, beq_eq_false_iff_ne.mpr hk, if_false]
      by_cases hk' : k1 = k'
      · simp [List.find?, hk']
      · simp [List.find?, beq_eq_false_iff_ne.mpr (fun hc => hk' hc.symm), ih]

theorem mem_keys_updAssoc {α : Type} {l : List (String × α)} {k a : String} {v : α}
    (h : a ∈ (updAssoc l k v).map Prod.fst) : a ∈ l.map Prod.fst ∨ a = k := by
  induction l with
  | nil =>
    rw [updAssoc_nil, List.map_cons, List.map_nil] at h
    exact Or.inr (List.mem_singleton.mp h)
  | cons p rest ih =>
    obtain ⟨k1, v1⟩ := p
    by_cases hk : k1 = k
    · rw [updAssoc_cons_eq v1 rest v hk, List.map_cons] at h
      rcases List.mem_cons.mp h with h2 | h2
      · exact Or.inr h2
      · exact Or.inl (List.mem_cons_of_mem _ h2)
    · rw [updAssoc_cons_ne v1 rest v hk, List.map_cons] at h
      rcases List.mem_cons.mp h with h2 | h2
      · exact Or.inl (by rw [List.map_cons]; exact h2 ▸ List.mem_cons_self _ _)
      · rcases ih h2 with h3 | h3
        · exact Or.inl (by rw [List.map_cons]; exact List.mem_cons_of_mem _ h3)
        · exact Or.inr h3

theorem goodDict_nil : GoodDict [] := by
  constructor
  · exact List.nodup_nil
  · intro p hp; cases hp

theorem goodDict_updAssoc {d : List (String × Posting)} {k : String} {v : Posting}
    (hd : GoodDict d) (hv : v.url = k) (hk : k ≠ "") : GoodDict (updAssoc d k v) := by
  induction d with
  | nil =>
    constructor
    · simp [updAssoc]
    · intro p hp
      simp [updAssoc] at hp
      subst hp
      exact ⟨hv, hk⟩
  | cons q rest ih =>
    obtain ⟨k1, v1⟩ := q
    obtain ⟨hnd, hent⟩ := hd
    rw [List.map_cons, List.nodup_cons] at hnd
    by_cases h : k1 = k
    · subst h
      constructor
      · rw [updAssoc_cons_eq v1 rest v rfl, List.map_cons, List.nodup_cons]
        exact hnd
      · intro p hp
        rw [updAssoc_cons_eq v1 rest v rfl] at hp
        rcases List.mem_cons.mp hp with h2 | h2
        · subst h2; exact ⟨hv, hk⟩
        · exact hent p (List.mem_cons_of_mem _ h2)
    · have ihres := ih ⟨hnd.2, fun p hp => hent p (List.mem_cons_of_mem _ hp)⟩
      constructor
      · rw [updAssoc_cons_ne v1 rest v h, List.map_cons, List.nodup_cons]
        refine ⟨fun hc => ?_, ihres.1⟩
        rcases mem_keys_updAssoc hc with h2 | h2
        · exact hnd.1 h2
        · exact h h2
      · intro p hp
        rw [updAssoc_cons_ne v1 rest v h] at hp
        rcases List.mem_cons.mp hp with h2 | h2
        · subst h2; exact hent (k1, v1) (List.mem_cons_self _ _)
        · exact ihres.2 p h2

theorem goodDict_append {d : List (String × Posting)} {k : String} {v : Posting}
    (hd : GoodDict d) (hnone : d.find? (fun p => p.1 == k) = none)
    (hv : v.url = k) (hk : k ≠ "") : GoodDict (d ++ [(k, v)]) := by
  obtain ⟨hnd, hent⟩ := hd
  have hknotin : k ∉ d.map Prod.fst := by
    intro hc
    rcases List.mem_map.mp hc with ⟨p, hp, hpk⟩
    exact absurd hpk (by simpa using List.find?_eq_none.mp hnone p hp)
  constructor
  · rw [List.map_append]
    simp only [List.map_cons, List.map_nil]
    rw [List.nodup_append]
    exact ⟨hnd, List.nodup_singleton k, by simpa using fun hc => hknotin hc⟩
  · intro p hp
    rcases List.mem_append.mp hp with h2 | h2
    · exact hent p h2
    · simp at h2; subst h2; exact ⟨hv, hk⟩

theorem goodDict_values_filter {d : List (String × Posting)} (hd : GoodDict d)
    (u : String) :
    (d.map (fun p => p.2)).filter (fun j => j.url == u)
      = ((d.find? (fun p => p.1 == u)).map (fun p => p.2)).toList := by
  induction d with
  | nil => rfl
  | cons p rest ih =>
    obtain ⟨k1, v1⟩ := p
    obtain ⟨hnd, hent⟩ := hd
    rw [List.map_cons, List.nodup_cons] at hnd
    have hv1 : v1.url = k1 := (hent (k1, v1) (List.mem_cons_self _ _)).1
    by_cases h : k1 = u
    · subst h
      have htail : (rest.map (fun p => p.2)).filter (fun j => j.url == k1) = [] := by
        refine List.filter_eq_nil_iff.mpr ?_
        intro j hj
        rcases List.mem_map.mp hj with ⟨q, hq, hqj⟩
        have hqu : q.2.url = q.1 := (hent q (List.mem_cons_of_mem _ hq)).1
        have hq1 : q.1 ∈ rest.map Prod.fst := List.mem_map.mpr ⟨q, hq, rfl⟩
        have : q.1 ≠ k1 := fun hc => hnd.1 (hc ▸ hq1)
        simp [← hqj, hqu, this]
      simp [List.filter, List.find?, hv1, htail]
    · have hb : (k1 == u) = false := beq_eq_false_iff_ne.mpr h
      have hvb : (v1.url == u) = false := by rw [hv1]; exact hb
      simp only [List.map_cons, List.filter, hvb, List.find?, hb]
      exact ih ⟨hnd.2, fun q hq => hent q (List.mem_cons_of_mem _ hq)⟩

theorem option_or_none {α : Type} (o : Option α) : o.or none = o := by cases o <;> rfl

theorem option_none_or {α : Type} (o : Option α) : Option.or none o = o := rfl

theorem option_some_or {α : Type} (a : α) (o : Option α) : (some a).or o = some a := rfl

theorem ne_empty_of_isEmpty_false {s : String} (h : s.isEmpty = false) : s ≠ "" :=
  fun hc => by rw [hc] at h; exact absurd h (by decide)

theorem scrapersCollapseDict_cons_empty {j : Posting} {rest : List Posting}
    {d : List (String × Posting)} (h : j.url.isEmpty = true) :
    scrapersCollapseDict (j :: rest) d = scrapersCollapseDict rest d := by
  simp [scrapersCollapseDict, h]

theorem scrapersCollapseDict_cons_nonempty {j : Posting} {rest : List Posting}
    {d : List (String × Posting)} (h : j.url.isEmpty = false) :
    scrapersCollapseDict (j :: rest) d = scrapersCollapseDict rest (updAssoc d j.url j) := by
  simp [scrapersCollapseDict, h]

theorem scrapersCollapseDict_good :
    ∀ (js : List Posting) (d : List (String × Posting)),
    GoodDict d → GoodDict (scrapersCollapseDict js d) := by
  intro js
  induction js with
  | nil => intro d hd; exact hd
  | cons j rest ih =>
    intro d hd
    by_cases hj : j.url.isEmpty
    · rw [scrapersCollapseDict_cons_empty hj]; exact ih d hd
    · rw [scrapersCollapseDict_cons_nonempty (Bool.not_eq_true _ ▸ hj)]
      exact ih _ (goodDict_updAssoc hd rfl
        (ne_empty_of_isEmpty_false (Bool.not_eq_true _ ▸ hj)))

theorem scrapersCollapseDict_find? {u : String} (hu : u ≠ "") :
    ∀ (js : List Posting) (d : List (String × Posting)), GoodDict d →
    (scrapersCollapseDict js d).find? (fun p => p.1 == u) =
      ((js.reverse.find? (fun j => j.url == u)).map (fun j => (u, j))).or
        (d.find? (fun p => p.1 == u)) := by
  intro js
  induction js with
  | nil => intro d hd; rfl
  | cons j rest ih =>
    intro d hd
    by_cases hj : j.url.isEmpty
    · have hju : j.url = "" := (String.isEmpty_iff _).mp hj
      have hne : (j.url == u) = false := by
        rw [hju]; exact beq_eq_false_iff_ne.mpr (fun hc => hu hc.symm)
      rw [scrapersCollapseDict_cons_empty hj, ih d hd, List.reverse_cons,
        List.find?_append]
      simp [List.find?, hne, option_or_none]
    · have hj' : j.url.isEmpty = false := Bool.not_eq_true _ ▸ hj
      have hju : j.url ≠ "" := ne_empty_of_isEmpty_false hj'
      rw [scrapersCollapseDict_cons_nonempty hj',
        ih _ (goodDict_updAssoc hd rfl hju), List.reverse_cons, List.find?_append]
      cases hr : rest.reverse.find? (fun p => p.url == u) with
      | some j' => simp [hr, option_some_or]
      | none =>
        simp only [hr, option_none_or, Option.map_none', option_none_or]
        by_cases hju2 : j.url = u
        · subst hju2
          rw [find?_updAssoc_self]
          simp [List.find?, option_some_or]
        · rw [find?_updAssoc_ne d j.url u j (fun hc => hju2 hc.symm)]
          simp [List.find?, beq_eq_false_iff_ne.mpr hju2, option_none_or]

theorem apiCollapseDict_cons_empty {j : Posting} {rest : List Posting}
    {d : List (String × Posting)} (h : j.url.isEmpty = true) :
    apiCollapseDict (j :: rest) d = apiCollapseDict rest d := by
  simp [apiCollapseDict, h]

theorem apiCollapseDict_cons_seen {j : Posting} {rest : List Posting}
    {d : List (String × Posting)} {q : String × Posting} (h : j.url.isEmpty = false)
    (h2 : d.find? (fun p => p.1 == j.url) = some q) :
    apiCollapseDict (j :: rest) d = apiCollapseDict rest d := by
  simp [apiCollapseDict, h, h2]

theorem apiCollapseDict_cons_new {j : Posting} {rest : List Posting}
    {d : List (String × Posting)} (h : j.url.isEmpty = false)
    (h2 : d.find? (fun p => p.1 == j.url) = none) :
    apiCollapseDict (j :: rest) d = apiCollapseDict rest (d ++ [(j.url, j)]) := by
  simp [apiCollapseDict, h, h2]

theorem apiCollapseDict_good :
    ∀ (js : List Posting) (d : List (String × Posting)),
    GoodDict d → GoodDict (apiCollapseDict js d) := by
  intro js
  induction js with
  | nil => intro d hd; exact hd
  | cons j rest ih =>
    intro d hd
    by_cases hj : j.url.isEmpty
    · rw [apiCollapseDict_cons_empty hj]; exact ih d hd
    · have hj' : j.url.isEmpty = false := Bool.not_eq_true _ ▸ hj
      cases hf : d.find? (fun p => p.1 == j.url) with
      | some q => rw [apiCollapseDict_cons_seen hj' hf]; exact ih d hd
      | none =>
        rw [apiCollapseDict_cons_new hj' hf]
        exact ih _ (goodDict_append hd hf rfl (ne_empty_of_isEmpty_false hj'))

theorem apiCollapseDict_find? {u : String} (hu : u ≠ "") :
    ∀ (js : List Posting) (d : List (String × Posting)), GoodDict d →
    (apiCollapseDict js d).find? (fun p => p.1 == u) =
      (d.find? (fun p => p.1 == u)).or
        ((js.find? (fun j => j.url == u)).map (fun j => (u, j))) := by
  intro js
  induction js with
  | nil =>
    intro d hd
    simp [apiCollapseDict, List.find?, option_or_none]
  | cons j rest ih =>
    intro d hd
    by_cases hj : j.url.isEmpty
    · have hju : j.url = "" := (String.isEmpty_iff _).mp hj
      have hne : (j.url == u) = false := by
        rw [hju]; exact beq_eq_false_iff_ne.mpr (fun hc => hu hc.symm)
      rw [apiCollapseDict_cons_empty hj, ih d hd]
      simp [List.find?, hne]
    · have hj' : j.url.isEmpty = false := Bool.not_eq_true _ ▸ hj
      cases hf : d.find? (fun p => p.1 == j.url) with
      | some q =>
        rw [apiCollapseDict_cons_seen hj' hf, ih d hd]
        by_cases hju : j.url = u
        · subst hju
          rw [hf, option_some_or, option_some_or]
        · simp [List.find?, beq_eq_false_iff_ne.mpr hju]
      | none =>
        rw [apiCollapseDict_cons_new hj' hf,
          ih _ (goodDict_append hd hf rfl (ne_empty_of_isEmpty_false hj')),
          List.find?_append, Option.or_assoc]
        by_cases hju : j.url = u
        · subst hju
          simp [List.find?, option_some_or]
        · simp [List.find?, beq_eq_false_iff_ne.mpr hju, option_none_or]

theorem jobScrapersDedup_filter {jobs : List Posting} {u : String} (hu : u ≠ "") :
    (jobScrapersDedup jobs).filter (fun j => j.url == u)
      = (jobs.reverse.find? (fun j => j.url == u)).toList := by
  unfold jobScrapersDedup
  rw [goodDict_values_filter (scrapersCollapseDict_good jobs [] goodDict_nil) u,
    scrapersCollapseDict_find? hu jobs [] goodDict_nil]
  cases jobs.reverse.find? (fun j => j.url == u) <;> rfl

theorem searchMultipleTitlesDedup_filter {jobs : List Posting} {u : String} (hu : u ≠ "") :
    (searchMultipleTitlesDedup jobs).filter (fun j => j.url == u)
      = (jobs.find? (fun j => j.url == u)).toList := by
  unfold searchMultipleTitlesDedup
  rw [goodDict_values_filter (apiCollapseDict_good jobs [] goodDict_nil) u,
    apiCollapseDict_find? hu jobs [] goodDict_nil]
  cases jobs.find? (fun j => j.url == u) <;> rfl

theorem searchJobsLoop_http_200 (location : String) (jobs : List RawJob)
    (rest : List PageResponse) (db : List String) (acc : List Posting)
    (tr : List DedupCall) :
    searchJobsLoop location (PageResponse.http 200 jobs :: rest) db acc tr
      = searchJobsLoop location rest (processJobs location jobs db acc tr).2.1
          (processJobs location jobs db acc tr).1 (processJobs location jobs db acc tr).2.2 := by
  simp [searchJobsLoop]

theorem searchJobsLoop_http_429 (location : String) (jobs : List RawJob)
    (rest : List PageResponse) (db : List String) (acc : List Posting)
    (tr : List DedupCall) :
    searchJobsLoop location (PageResponse.http 429 jobs :: rest) db acc tr = (acc, db, tr) := by
  simp [searchJobsLoop]

theorem searchJobsLoop_http_other (location : String) {s : Nat} (jobs : List RawJob)
    (rest : List PageResponse) (db : List String) (acc : List Posting)
    (tr : List DedupCall) (h1 : s ≠ 200) (h2 : s ≠ 429) :
    searchJobsLoop location (PageResponse.http s jobs :: rest) db acc tr
      = searchJobsLoop location rest db acc tr := by
  simp [searchJobsLoop, h1, h2]

theorem searchJobsLoop_append_429 (location : String) (js : List RawJob) :
    ∀ (front suffix : List PageResponse) (db : List String) (acc : List Posting)
      (tr : List DedupCall),
    searchJobsLoop location (front ++ PageResponse.http 429 js :: suffix) db acc tr
      = searchJobsLoop location front db acc tr := by
  intro front
  induction front with
  | nil =>
    intro suffix db acc tr
    rw [List.nil_append, searchJobsLoop_http_429]
    rfl
  | cons p front' ih =>
    intro suffix db acc tr
    cases p with
    | failure => rfl
    | http s jobs =>
      by_cases hs : s = 200
      · subst hs
        rw [List.cons_append, searchJobsLoop_http_200, searchJobsLoop_http_200, ih]
      · by_cases hs2 : s = 429
        · subst hs2
          rw [List.cons_append, searchJobsLoop_http_429, searchJobsLoop_http_429]
        · rw [List.cons_append, searchJobsLoop_http_other location jobs _ db acc tr hs hs2,
            searchJobsLoop_http_other location jobs _ db acc tr hs hs2, ih]

theorem searchJobsLoop_append_skip (location : String) {s : Nat} (js : List RawJob)
    (hs1 : s ≠ 200) (hs2 : s ≠ 429) :
    ∀ (front suffix : List PageResponse) (db : List String) (acc : List Posting)
      (tr : List DedupCall),
    searchJobsLoop location (front ++ PageResponse.http s js :: suffix) db acc tr
      = searchJobsLoop location (front ++ suffix) db acc tr := by
  intro front
  induction front with
  | nil =>
    intro suffix db acc tr
    rw [List.nil_append, List.nil_append, searchJobsLoop_http_other location js _ db acc tr hs1 hs2]
  | cons p front' ih =>
    intro suffix db acc tr
    cases p with
    | failure => rfl
    | http s' jobs =>
      by_cases h' : s' = 200
      · subst h'
        rw [List.cons_append, List.cons_append, searchJobsLoop_http_200,
          searchJobsLoop_http_200, ih]
      · by_cases h'2 : s' = 429
        · subst h'2
          rw [List.cons_append, List.cons_append, searchJobsLoop_http_429,
            searchJobsLoop_http_429]
        · rw [List.cons_append, List.cons_append,
            searchJobsLoop_http_other location jobs _ db acc tr h' h'2,
            searchJobsLoop_http_other location jobs _ db acc tr h' h'2, ih]

theorem cacheGet_some_mem {st : CacheState} {now expiry : Int} {k : String} {v : Json}
    (h : cacheGet st now expiry k = some v) : ∃ e ∈ st, e.key = k ∧ e.value = v := by
  unfold cacheGet cacheLookup at h
  cases hf : st.find? (fun e => e.key == k) with
  | none => rw [hf] at h; simp at h
  | some e =>
    rw [hf] at h
    simp only [Option.map_some'] at h
    by_cases ht : expiry < now - e.timestamp
    · rw [if_pos ht] at h; cases h
    · rw [if_neg ht] at h
      refine ⟨e, List.mem_of_find?_eq_some hf, ?_, ?_⟩
      · have hp := List.find?_some hf
        exact beq_iff_eq.mp hp
      · injection h

theorem listStartsWith_append : ∀ (l m : List Char), listStartsWith l (l ++ m) = true := by
  intro l m
  induction l with
  | nil => rfl
  | cons c rest ih => simp [listStartsWith, ih]

theorem isProfileKey_append (s : String) : isProfileKey ("profile_v4_" ++ s) = true := by
  unfold isProfileKey
  rw [String.data_append]
  exact listStartsWith_append _ _

theorem jget_jset_obj (fields : List (String × Json)) (k : String) (v : Json) :
    jget (jset (Json.obj fields) k v) k = some v := by
  simp only [jset, jget]
  rw [find?_updAssoc_self]
  rfl

theorem queriesOK_fixQueries (fields : List (String × Json)) :
    queriesOK (fixQueries (Json.obj fields)) = true := by
  unfold fixQueries
  by_cases hb : queriesBad (Json.obj fields)
  · rw [if_pos hb]
    unfold queriesOK
    rw [jget_jset_obj]
  · rw [if_neg hb]
    rw [Bool.not_eq_true] at hb
    unfold queriesBad at hb
    unfold queriesOK
    cases hq : jget (Json.obj fields) "queries" with
    | none => rw [hq] at hb; cases hb
    | some w =>
      rw [hq] at hb
      cases w with
      | arr elems =>
        cases elems with
        | nil => simp [truthy] at hb
        | cons a as => rfl
      | null => simp [truthy] at hb
      | bool b => simp [truthy] at hb
      | num n => simp [truthy] at hb
      | str s => simp [truthy] at hb
      | obj fs => simp [truthy] at hb

theorem matchErrVerdict_ne (e : String) :
    matchErrVerdict e ≠ "Intelligence engine not active." := by
  unfold matchErrVerdict
  split_ifs with h
  · decide
  · intro hc
    have h2 := congrArg String.data hc
    rw [String.data_append] at h2
    simp at h2

theorem analyze_match_hit {hash : String → String} {parse : String → Except String Json}
    {env : ProviderEnv} {st : CacheState} {now : Int} {r j : String} {v : Json}
    (h1 : cacheGet st now defaultExpirySeconds (matchKey hash r j) = some v)
    (h2 : truthy v = true) :
    analyze_match hash parse env st now r j = (v, st, 0) := by
  unfold analyze_match
  rw [h1]
  simp [h2]

theorem analyze_match_missing {hash : String → String} {parse : String → Except String Json}
    {env : ProviderEnv} {st : CacheState} {now : Int} {r j : String}
    (h1 : truthyOpt (cacheGet st now defaultExpirySeconds (matchKey hash r j)) = false) :
    analyze_match hash parse env st now r j
      = analyzeMatchMiss parse env st now (matchKey hash r j) r j := by
  unfold analyze_match
  cases hc : cacheGet st now defaultExpirySeconds (matchKey hash r j) with
  | none => rfl
  | some c =>
    rw [hc] at h1
    have : truthy c = false := h1
    simp [this]

theorem analyzeMatchMiss_noProvider {parse : String → Except String Json}
    {env : ProviderEnv} {st : CacheState} {now : Int} {key r j : String}
    (h : (env.gemini.isNone && env.openai.isNone) = true) :
    analyzeMatchMiss parse env st now key r j = (noProviderMatchResult, st, 0) := by
  unfold analyzeMatchMiss
  simp [h]

theorem analyzeMatchMiss_callError {parse : String → Except String Json}
    {env : ProviderEnv} {st : CacheState} {now : Int} {key r j e : String}
    (hflag : (env.gemini.isNone && env.openai.isNone) = false)
    (hcall : (call_ai env (matchPrompt r j)).1 = Except.error e) :
    analyzeMatchMiss parse env st now key r j
      = (matchErrResult e, st, (call_ai env (matchPrompt r j)).2) := by
  unfold analyzeMatchMiss
  rw [hflag]
  simp only [Bool.false_eq_true, if_false]
  rw [hcall]

theorem analyzeMatchMiss_parseError {parse : String → Except String Json}
    {env : ProviderEnv} {st : CacheState} {now : Int} {key r j t e : String}
    (hflag : (env.gemini.isNone && env.openai.isNone) = false)
    (hcall : (call_ai env (matchPrompt r j)).1 = Except.ok t)
    (hparse : parse t = Except.error e) :
    analyzeMatchMiss parse env st now key r j
      = (matchErrResult e, st, (call_ai env (matchPrompt r j)).2) := by
  unfold analyzeMatchMiss
  rw [hflag]
  simp only [Bool.false_eq_true, if_false]
  rw [hcall]
  dsimp only
  rw [hparse]

theorem analyzeMatchMiss_success {parse : String → Except String Json}
    {env : ProviderEnv} {st : CacheState} {now : Int} {key r j t : String} {v : Json}
    (hflag : (env.gemini.isNone && env.openai.isNone) = false)
    (hcall : (call_ai env (matchPrompt r j)).1 = Except.ok t)
    (hparse : parse t = Except.ok v) :
    analyzeMatchMiss parse env st now key r j
      = (v, cacheSet st now key v, (call_ai env (matchPrompt r j)).2) := by
  unfold analyzeMatchMiss
  rw [hflag]
  simp only [Bool.false_eq_true, if_false]
  rw [hcall]
  dsimp only
  rw [hparse]

theorem extract_search_profile_missing {hash : String → String}
    {parse : String → Except String Json} {env : ProviderEnv} {st : CacheState}
    {now : Int} {resume : String}
    (h1 : truthyOpt (cacheGet st now defaultExpirySeconds (profileKey hash resume)) = false) :
    extract_search_profile hash parse env st now resume
      = extractProfileMiss parse env st now (profileKey hash resume) resume := by
  unfold extract_search_profile
  cases hc : cacheGet st now defaultExpirySeconds (profileKey hash resume) with
  | none => rfl
  | some c =>
    rw [hc] at h1
    have : truthy c = false := h1
    simp [this]

theorem extract_search_profile_hit {hash : String → String}
    {parse : String → Except String Json} {env : ProviderEnv} {st : CacheState}
    {now : Int} {resume : String} {v : Json}
    (h1 : cacheGet st now defaultExpirySeconds (profileKey hash resume) = some v)
    (h2 : truthy v = true) :
    extract_search_profile hash parse env st now resume = (v, st, 0) := by
  unfold extract_search_profile
  rw [h1]
  simp [h2]

theorem extractProfileMiss_cases (parse : String → Except String Json)
    (env : ProviderEnv) (st : CacheState) (now : Int) (key resume : String) :
    extractProfileMiss parse env st now key resume = (noProviderProfile, st, 0)
    ∨ (∃ n, extractProfileMiss parse env st now key resume = (profileErrResult, st, n))
    ∨ (∃ fields n, extractProfileMiss parse env st now key resume
        = (fixQueries (Json.obj fields),
           cacheSet st now key (fixQueries (Json.obj fields)), n)) := by
  unfold extractProfileMiss
  by_cases hflag : (env.gemini.isNone && env.openai.isNone) = true
  · rw [hflag]
    exact Or.inl rfl
  · rw [Bool.not_eq_true] at hflag
    rw [hflag]
    simp only [Bool.false_eq_true, if_false]
    generalize (call_ai env (profilePrompt resume)).1 = res
    cases res with
    | error e => exact Or.inr (Or.inl ⟨_, rfl⟩)
    | ok text =>
      dsimp only
      generalize parse text = pres
      cases pres with
      | error e => exact Or.inr (Or.inl ⟨_, rfl⟩)
      | ok result =>
        cases result with
        | obj fields => exact Or.inr (Or.inr ⟨fields, _, rfl⟩)
        | null => exact Or.inr (Or.inl ⟨_, rfl⟩)
        | bool b => exact Or.inr (Or.inl ⟨_, rfl⟩)
        | num n => exact Or.inr (Or.inl ⟨_, rfl⟩)
        | str s => exact Or.inr (Or.inl ⟨_, rfl⟩)
        | arr elems => exact Or.inr (Or.inl ⟨_, rfl⟩)

/-! # Claim theorems -/

/-- C2: `calculate_local_score` returns an integer in `[0, 95]`
(non-negativity is inherent to the `Nat` codomain); it returns exactly 0
when the resume text or the job title is the empty string or the title
yields no tokens; otherwise, when the raw component sum (title overlap
capped at 60, description overlap capped at 40, domain-keyword bonus) is
below 10 the result is 5, and otherwise the result is the raw sum capped
at 95. -/
theorem claim_C2 : ∀ r t d : String,
    calculate_local_score r t d ≤ 95
    ∧ ((r.isEmpty || t.isEmpty) = true ∨ getTokens t = ∅ →
        calculate_local_score r t d = 0)
    ∧ ((r.isEmpty || t.isEmpty) = false → getTokens t ≠ ∅ →
        (rawLocalSum (getTokens r) (getTokens t) (getTokens d) < 10 →
          calculate_local_score r t d = 5)
        ∧ (10 ≤ rawLocalSum (getTokens r) (getTokens t) (getTokens d) →
          calculate_local_score r t d
            = min 95 (rawLocalSum (getTokens r) (getTokens t) (getTokens d))))
    ∧ (calculate_local_score r t d = 0
        ↔ ((r.isEmpty || t.isEmpty) = true ∨ getTokens t = ∅)) := by
  intro r t d
  have hzero : (r.isEmpty || t.isEmpty) = true ∨ getTokens t = ∅ →
      calculate_local_score r t d = 0 := by
    intro h
    rcases h with h | h
    · simp [calculate_local_score, h]
    · unfold calculate_local_score
      split_ifs with hb
      · rfl
      · simp [localScoreSets, h]
  refine ⟨?_, hzero, ?_, ?_⟩
  · unfold calculate_local_score
    split_ifs with hb
    · omega
    · exact localScoreSets_le_95 _ _ _
  · intro hb ht
    unfold calculate_local_score
    rw [hb]
    simp only [Bool.false_eq_true, if_false]
    constructor
    · intro h10
      simp [localScoreSets, ht, h10]
    · intro h10
      have hn : ¬ rawLocalSum (getTokens r) (getTokens t) (getTokens d) < 10 := by omega
      simp [localScoreSets, ht, hn]
  · constructor
    · intro h0
      by_cases hb : (r.isEmpty || t.isEmpty) = true
      · exact Or.inl hb
      · by_cases ht : getTokens t = ∅
        · exact Or.inr ht
        · exfalso
          rw [Bool.not_eq_true] at hb
          unfold calculate_local_score at h0
          rw [hb] at h0
          simp only [Bool.false_eq_true, if_false] at h0
          unfold localScoreSets at h0
          rw [if_neg ht] at h0
          by_cases h10 : rawLocalSum (getTokens r) (getTokens t) (getTokens d) < 10
          · rw [if_pos h10] at h0; omega
          · rw [if_neg h10] at h0
            have hpos : 0 < min 95 (rawLocalSum (getTokens r) (getTokens t) (getTokens d)) :=
              lt_min (by omega) (by omega)
            omega
    · exact hzero

/-- C2 witness: on the pair of texts "safety engineer" / "safety
engineer" with an empty description, the raw sum reaches at least 10
and the score equals the capped raw sum, and the scorer returns 0 on an
empty resume text. -/
theorem claim_C2_witness :
    10 ≤ rawLocalSum (getTokens "safety engineer") (getTokens "safety engineer") (getTokens "")
    ∧ calculate_local_score "safety engineer" "safety engineer" ""
        = min 95 (rawLocalSum (getTokens "safety engineer") (getTokens "safety engineer")
            (getTokens ""))
    ∧ calculate_local_score "" "x" "" = 0 :=
  ⟨by decide,
   ((claim_C2 "safety engineer" "safety engineer" "").2.2.1 (by decide) (by decide)).2
     (by decide),
   (claim_C2 "" "x" "").2.1 (Or.inl (by decide))⟩

/-- C3: writing a cache entry and reading it back before the TTL has
elapsed returns exactly the stored value; once the entry's age exceeds
the TTL the read returns absent even though the stored entry itself is
untouched; a read with no entry stored returns absent; the default TTL
is 86400 seconds. -/
theorem claim_C3 : ∀ (st : CacheState) (k : String) (v : Json) (tset tget expiry : Int),
    (tget - tset ≤ expiry → cacheGet (cacheSet st tset k v) tget expiry k = some v)
    ∧ (expiry < tget - tset →
        cacheGet (cacheSet st tset k v) tget expiry k = none
        ∧ cacheLookup (cacheSet st tset k v) k = some (tset, v))
    ∧ (cacheLookup st k = none → cacheGet st tget expiry k = none)
    ∧ defaultExpirySeconds = 86400 := by
  intro st k v tset tget expiry
  exact ⟨fun h => cacheGet_cacheSet_fresh st tset tget expiry k v h,
         fun h => ⟨cacheGet_cacheSet_stale st tset tget expiry k v h,
                   cacheLookup_cacheSet_self st tset k v⟩,
         fun h => cacheGet_of_lookup_none st tget expiry k h,
         rfl⟩

/-- C3 witness: a concrete set/get round trip within the TTL returns the
value, and the same entry read after the TTL returns absent while the
entry is still stored. -/
theorem claim_C3_witness :
    cacheGet (cacheSet [] 0 "k" (Json.num 7)) 10 86400 "k" = some (Json.num 7)
    ∧ cacheGet (cacheSet [] 0 "k" (Json.num 7)) 90000 86400 "k" = none
    ∧ cacheLookup (cacheSet [] 0 "k" (Json.num 7)) "k" = some (0, Json.num 7) :=
  ⟨(claim_C3 [] "k" (Json.num 7) 0 10 86400).1 (by decide),
   ((claim_C3 [] "k" (Json.num 7) 0 90000 86400).2.1 (by decide)).1,
   ((claim_C3 [] "k" (Json.num 7) 0 90000 86400).2.1 (by decide)).2⟩

/-- C4 (code bug): every keyed call of the structured-API fetcher
raises `NameError: name 'database' is not defined` before requesting
any page, because `job_api_search.py` never imports `database` — so the
claimed 429 scenario is unreachable and "raises no exception" is false;
a key-less call returns empty without touching the store.  The page
loop of lines 44–94 does implement the claimed behavior: on the 3-page
run answering 200, 429, 200 it computes exactly the run of page 1
alone, stopping at the 429. -/
theorem claim_C4_bug : ∀ (location : String) (pages : List PageResponse)
    (db : List String),
    search_jobs true location pages db = Except.error nameErrorDatabase
    ∧ search_jobs false location pages db = Except.ok ([], db, [])
    ∧ searchJobsLoop "United States"
        [PageResponse.http 200 [noLinkJob], PageResponse.http 429 [],
         PageResponse.http 200 []] [] [] []
      = searchJobsLoop "United States" [PageResponse.http 200 [noLinkJob]] [] [] [] := by
  intro location pages db
  exact ⟨rfl, rfl,
    searchJobsLoop_append_429 "United States" [] [PageResponse.http 200 [noLinkJob]]
      [PageResponse.http 200 []] [] [] []⟩

/-- C8: the local scorer is a pure function — identical inputs yield the
identical integer — its token-set form is bounded by 95, and it is
monotonically non-decreasing when a token shared between profile and
title (longer than 3 characters), or between profile and description
(longer than 4 characters), or a shared domain keyword is added while
the other inputs are held fixed. -/
theorem claim_C8 : ∀ (r1 t1 d1 r2 t2 d2 : String) (R T D : Finset String) (tok : String),
    (r1 = r2 → t1 = t2 → d1 = d2 →
      calculate_local_score r1 t1 d1 = calculate_local_score r2 t2 d2)
    ∧ localScoreSets R T D ≤ 95
    ∧ (3 < tok.length →
        localScoreSets R T D ≤ localScoreSets (insert tok R) (insert tok T) D)
    ∧ (4 < tok.length →
        localScoreSets R T D ≤ localScoreSets (insert tok R) T (insert tok D))
    ∧ (tok ∈ domainKeywords →
        localScoreSets R T D ≤ localScoreSets (insert tok R) (insert tok T) D
        ∧ localScoreSets R T D ≤ localScoreSets (insert tok R) T (insert tok D)) := by
  intro r1 t1 d1 r2 t2 d2 R T D tok
  have hmonoT : localScoreSets R T D ≤ localScoreSets (insert tok R) (insert tok T) D :=
    localScoreSets_mono (Finset.subset_insert tok R) (Finset.subset_insert tok T)
      (subset_refl D)
  have hmonoD : localScoreSets R T D ≤ localScoreSets (insert tok R) T (insert tok D) :=
    localScoreSets_mono (Finset.subset_insert tok R) (subset_refl T)
      (Finset.subset_insert tok D)
  exact ⟨fun h1 h2 h3 => by rw [h1, h2, h3],
         localScoreSets_le_95 R T D,
         fun _ => hmonoT,
         fun _ => hmonoD,
         fun _ => ⟨hmonoT, hmonoD⟩⟩

/-- C8 witness: adding the shared token "abcd" (longer than 3
characters) to empty profile and title token sets does not decrease the
score. -/
theorem claim_C8_witness :
    localScoreSets ∅ ∅ ∅ ≤ localScoreSets (insert "abcd" ∅) (insert "abcd" ∅) ∅ :=
  (claim_C8 "a" "b" "c" "a" "b" "c" ∅ ∅ ∅ "abcd").2.2.1 (by decide)

/-- C1 counterexample: with no AI provider configured (and an empty
cache), `analyze_match` returns the record with score 50 — not 0 — and
empty strengths and gaps arrays, contradicting the claim that the
no-provider result has score 0 and non-empty strengths/gaps. -/
theorem claim_C1_counterexample :
    (analyze_match idHash parseFail envNone [] 0 "resume" "job").1 = noProviderMatchResult
    ∧ jget noProviderMatchResult "score" = some (Json.num 50)
    ∧ jget noProviderMatchResult "score" ≠ some (Json.num 0)
    ∧ jget noProviderMatchResult "strengths" = some (Json.arr [])
    ∧ jget noProviderMatchResult "gaps" = some (Json.arr []) := by
  refine ⟨rfl, rfl, ?_, rfl, rfl⟩
  intro h
  rw [show jget noProviderMatchResult "score" = some (Json.num 50) from rfl] at h
  injection h with h1
  injection h1 with h2
  exact absurd h2 (by decide)

/-- C1 amended: on a cache miss, when no provider is configured
`analyze_match` returns score 50 with verdict "Intelligence engine not
active." and empty strengths/gaps; when a provider is configured but
the call (or the parse of its answer) fails, it returns the error
record with score 0, non-empty strengths and gaps, and a verdict
distinct from the no-provider verdict, so the two failure modes remain
distinguishable. -/
theorem claim_C1_amended : ∀ (hash : String → String)
    (parse : String → Except String Json) (env : ProviderEnv) (st : CacheState)
    (now : Int) (r j e t : String),
    truthyOpt (cacheGet st now defaultExpirySeconds (matchKey hash r j)) = false →
    ((env.gemini.isNone && env.openai.isNone) = true →
      analyze_match hash parse env st now r j = (noProviderMatchResult, st, 0))
    ∧ ((env.gemini.isNone && env.openai.isNone) = false →
      (call_ai env (matchPrompt r j)).1 = Except.error e →
      analyze_match hash parse env st now r j
        = (matchErrResult e, st, (call_ai env (matchPrompt r j)).2))
    ∧ ((env.gemini.isNone && env.openai.isNone) = false →
      (call_ai env (matchPrompt r j)).1 = Except.ok t →
      parse t = Except.error e →
      analyze_match hash parse env st now r j
        = (matchErrResult e, st, (call_ai env (matchPrompt r j)).2))
    ∧ jget (matchErrResult e) "score" = some (Json.num 0)
    ∧ jget (matchErrResult e) "strengths" = some (Json.arr [Json.str "Wait for retry"])
    ∧ jget (matchErrResult e) "gaps" = some (Json.arr [Json.str "API Quota / Model ID"])
    ∧ jget (matchErrResult e) "verdict" ≠ jget noProviderMatchResult "verdict" := by
  intro hash parse env st now r j e t hmiss
  refine ⟨?_, ?_, ?_, rfl, rfl, rfl, ?_⟩
  · intro hflag
    rw [analyze_match_missing hmiss, analyzeMatchMiss_noProvider hflag]
  · intro hflag hcall
    rw [analyze_match_missing hmiss, analyzeMatchMiss_callError hflag hcall]
  · intro hflag hcall hparse
    rw [analyze_match_missing hmiss, analyzeMatchMiss_parseError hflag hcall hparse]
  · intro h
    rw [show jget (matchErrResult e) "verdict" = some (Json.str (matchErrVerdict e)) from rfl,
      show jget noProviderMatchResult "verdict"
        = some (Json.str "Intelligence engine not active.") from rfl] at h
    injection h with h1
    injection h1 with h2
    exact matchErrVerdict_ne e h2

/-- C1 witness: the no-provider branch at a concrete input, and the
all-providers-failed branch with a Gemini-only environment whose call
fails (one provider call is made, and the error record is returned). -/
theorem claim_C1_witness :
    analyze_match idHash parseFail envNone [] 0 "r" "j" = (noProviderMatchResult, [], 0)
    ∧ analyze_match idHash parseFail envGeminiFail [] 0 "r" "j"
        = (matchErrResult noProvidersMsg, [], 1) :=
  ⟨(claim_C1_amended idHash parseFail envNone [] 0 "r" "j" noProvidersMsg "t" rfl).1 rfl,
   (claim_C1_amended idHash parseFail envGeminiFail [] 0 "r" "j" noProvidersMsg "t"
      rfl).2.1 rfl rfl⟩

/-- C5 counterexample: the aggregator's scraper path — live code, since
`job_scrapers.py` does import `database` — receives an Indeed posting
with an empty URL and passes the empty URL straight to the dedup
store's `job_seen`, records it via `add_discovered_job` (it enters the
store), and keeps the posting in the result, contradicting the claim
that empty-URL postings are discarded before any dedup-store
interaction and that a non-empty URL is a precondition for entering
the store. -/
theorem claim_C5_counterexample :
    (aggregatorFilterJobs [emptyUrlPosting] [] [] []).2.2
      = [DedupCall.seenQuery "", DedupCall.markSeen ""]
    ∧ (aggregatorFilterJobs [emptyUrlPosting] [] [] []).2.1 = [""]
    ∧ (aggregatorFilterJobs [emptyUrlPosting] [] [] []).1 = [emptyUrlPosting]
    ∧ emptyUrlPosting.url = "" :=
  ⟨rfl, rfl, rfl, rfl⟩

/-- C5 amended: no component discards empty-URL postings before the
dedup store.  The structured-API fetcher raises `NameError` on every
keyed call (never reaching the store) and returns empty without a key;
the aggregator's scraper-path filter passes an unseen empty URL to
`job_seen`, records it via `add_discovered_job` — so it does enter the
Dedup Store — and keeps the posting; empty-URL postings are dropped
only at the final URL-keyed collapses of `job_scrapers.search_jobs`
and `search_multiple_titles`. -/
theorem claim_C5_amended : ∀ (location : String) (pages : List PageResponse)
    (db : List String) (j : Posting),
    j.url = "" → ¬ ("" ∈ db) →
    search_jobs true location pages db = Except.error nameErrorDatabase
    ∧ search_jobs false location pages db = Except.ok ([], db, [])
    ∧ aggregatorFilterJobs [j] db [] []
        = ([j], "" :: db, [DedupCall.seenQuery "", DedupCall.markSeen ""])
    ∧ jobScrapersDedup [j] = []
    ∧ searchMultipleTitlesDedup [j] = [] := by
  intro location pages db j hurl hdb
  have hempty : ("" : String).isEmpty = true := rfl
  refine ⟨rfl, rfl, ?_, ?_, ?_⟩
  · simp [aggregatorFilterJobs, hurl, hdb]
  · simp [jobScrapersDedup, scrapersCollapseDict, hurl, hempty]
  · simp [searchMultipleTitlesDedup, apiCollapseDict, hurl, hempty]

/-- C5 witness: the amended behavior at a concrete empty-URL scraped
posting and an empty dedup store. -/
theorem claim_C5_witness :
    aggregatorFilterJobs [emptyUrlPosting] [] [] []
      = ([emptyUrlPosting], [""], [DedupCall.seenQuery "", DedupCall.markSeen ""])
    ∧ jobScrapersDedup [emptyUrlPosting] = []
    ∧ search_jobs true "United States" [] [] = Except.error nameErrorDatabase :=
  ⟨(claim_C5_amended "United States" [] [] emptyUrlPosting rfl (by simp)).2.2.1,
   (claim_C5_amended "United States" [] [] emptyUrlPosting rfl (by simp)).2.2.2.1,
   (claim_C5_amended "United States" [] [] emptyUrlPosting rfl (by simp)).1⟩

/-- C6 counterexample: two postings with the same URL in concatenation
order — the aggregator's collapse in `job_scrapers.search_jobs` keeps
the second (last) occurrence, not the first, contradicting the claim
that the first occurrence is kept. -/
theorem claim_C6_counterexample :
    jobScrapersDedup [postingA, postingB] = [postingB]
    ∧ postingB ≠ postingA
    ∧ jobScrapersDedup [postingA, postingB] ≠ [postingA] := by
  refine ⟨rfl, by decide, ?_⟩
  rw [show jobScrapersDedup [postingA, postingB] = [postingB] from rfl]
  decide

/-- C6 amended: both URL-keyed collapses return exactly one posting per
non-empty URL; the collapse of `job_scrapers.search_jobs` keeps the
last occurrence of each URL in concatenation order (at the position of
the first), while `search_multiple_titles` keeps the first
occurrence. -/
theorem claim_C6_amended : ∀ (jobs : List Posting) (u : String), u ≠ "" →
    (jobScrapersDedup jobs).filter (fun j => j.url == u)
      = (jobs.reverse.find? (fun j => j.url == u)).toList
    ∧ (searchMultipleTitlesDedup jobs).filter (fun j => j.url == u)
      = (jobs.find? (fun j => j.url == u)).toList :=
  fun _ _ hu => ⟨jobScrapersDedup_filter hu, searchMultipleTitlesDedup_filter hu⟩

/-- C6 witness: the amended characterization evaluated on the two
same-URL postings. -/
theorem claim_C6_witness :
    (jobScrapersDedup [postingA, postingB]).filter (fun j => j.url == "u")
      = ([postingA, postingB].reverse.find? (fun j => j.url == "u")).toList
    ∧ (searchMultipleTitlesDedup [postingA, postingB]).filter (fun j => j.url == "u")
      = ([postingA, postingB].find? (fun j => j.url == "u")).toList :=
  claim_C6_amended [postingA, postingB] "u" (by decide)

/-- C7 counterexample: the provider answers with the parseable text of
the empty JSON object; the first `analyze_match` call caches it, but on
the identical second call the cached empty object is falsy, so the
cache hit is ignored and a provider is invoked again (one provider call
instead of the claimed zero). -/
theorem claim_C7_counterexample :
    parseEmptyObj "resp" = Except.ok (Json.obj [])
    ∧ (analyze_match idHash parseEmptyObj envGeminiOnly [] 0 "r" "j").2.2 = 1
    ∧ (analyze_match idHash parseEmptyObj envGeminiOnly
        (analyze_match idHash parseEmptyObj envGeminiOnly [] 0 "r" "j").2.1 0 "r" "j").2.2
      = 1 :=
  ⟨rfl, rfl, rfl⟩

/-- C7 amended: when the first call is a cache miss whose provider
answer parses to a truthy value, a second call with the identical
inputs within the TTL is served from the cache: it returns the cached
value, leaves the cache unchanged, and makes zero provider calls. -/
theorem claim_C7_amended : ∀ (hash : String → String)
    (parse : String → Except String Json) (env : ProviderEnv) (st : CacheState)
    (now now2 : Int) (r j t : String) (v : Json),
    truthyOpt (cacheGet st now defaultExpirySeconds (matchKey hash r j)) = false →
    (env.gemini.isNone && env.openai.isNone) = false →
    (call_ai env (matchPrompt r j)).1 = Except.ok t →
    parse t = Except.ok v →
    truthy v = true →
    now2 - now ≤ defaultExpirySeconds →
    analyze_match hash parse env (analyze_match hash parse env st now r j).2.1 now2 r j
      = (v, (analyze_match hash parse env st now r j).2.1, 0) := by
  intro hash parse env st now now2 r j t v hmiss hflag hcall hparse htr hage
  have hfirst : analyze_match hash parse env st now r j
      = (v, cacheSet st now (matchKey hash r j) v, (call_ai env (matchPrompt r j)).2) := by
    rw [analyze_match_missing hmiss, analyzeMatchMiss_success hflag hcall hparse]
  rw [hfirst]
  exact analyze_match_hit
    (cacheGet_cacheSet_fresh st now now2 defaultExpirySeconds (matchKey hash r j) v hage)
    htr

/-- C7 witness: the amended property at a concrete truthy parsed
result. -/
theorem claim_C7_witness :
    analyze_match idHash parseGoodObj envGeminiOnly
      (analyze_match idHash parseGoodObj envGeminiOnly [] 0 "r" "j").2.1 5 "r" "j"
      = (Json.obj [("score", Json.num 88)],
         (analyze_match idHash parseGoodObj envGeminiOnly [] 0 "r" "j").2.1, 0) :=
  claim_C7_amended idHash parseGoodObj envGeminiOnly [] 0 5 "r" "j" "resp"
    (Json.obj [("score", Json.num 88)]) rfl rfl rfl rfl rfl (by decide)

/-- C9 counterexample: a provider answer parsing to
`{"queries": [1], "location": "USA"}` is passed through unchanged by
`extract_search_profile` — its `queries` list is non-empty but contains
a non-string entry, contradicting the claim that the returned `queries`
is a sequence of strings on every path. -/
theorem claim_C9_counterexample :
    jget (extract_search_profile idHash parseNumQueries envGeminiOnly [] 0 "resume").1
        "queries"
      = some (Json.arr [Json.num 1])
    ∧ ∀ s : String, Json.num 1 ≠ Json.str s :=
  ⟨rfl, fun _ h => Json.noConfusion h⟩

/-- C9 amended: provided every stored cache value under a
`profile_v4_` key has a non-empty `queries` list, the record returned
by `extract_search_profile` has a non-empty `queries` list (at least 1
entry) on every execution path — cache hit, successful parse, malformed
output, provider failure, and no provider configured — and the cache
keeps that invariant; queries entries are strings on the default and
failure paths but a provider-supplied list is passed through without
checking entry types. -/
theorem claim_C9_amended : ∀ (hash : String → String)
    (parse : String → Except String Json) (env : ProviderEnv) (st : CacheState)
    (now : Int) (resume : String),
    (∀ e ∈ st, isProfileKey e.key = true → queriesOK e.value = true) →
    queriesOK (extract_search_profile hash parse env st now resume).1 = true
    ∧ (∀ e ∈ (extract_search_profile hash parse env st now resume).2.1,
        isProfileKey e.key = true → queriesOK e.value = true) := by
  intro hash parse env st now resume hinv
  have hmisscase : extract_search_profile hash parse env st now resume
        = extractProfileMiss parse env st now (profileKey hash resume) resume →
      queriesOK (extract_search_profile hash parse env st now resume).1 = true
      ∧ (∀ e ∈ (extract_search_profile hash parse env st now resume).2.1,
          isProfileKey e.key = true → queriesOK e.value = true) := by
    intro heq
    rw [heq]
    rcases extractProfileMiss_cases parse env st now (profileKey hash resume) resume with
      hcase | ⟨n, hcase⟩ | ⟨fields, n, hcase⟩
    · rw [hcase]
      exact ⟨rfl, hinv⟩
    · rw [hcase]
      exact ⟨rfl, hinv⟩
    · rw [hcase]
      refine ⟨queriesOK_fixQueries fields, ?_⟩
      intro e he hk
      rcases List.mem_cons.mp he with h2 | h2
      · rw [h2]
        exact queriesOK_fixQueries fields
      · exact hinv e h2 hk
  cases hc : cacheGet st now defaultExpirySeconds (profileKey hash resume) with
  | none => exact hmisscase (extract_search_profile_missing (by rw [hc]; rfl))
  | some c =>
    by_cases htc : truthy c = true
    · rw [extract_search_profile_hit hc htc]
      constructor
      · obtain ⟨e, he, hek, hev⟩ := cacheGet_some_mem hc
        have hpk : isProfileKey e.key = true := by
          rw [hek]
          exact isProfileKey_append (hash resume)
        rw [← hev]
        exact hinv e he hpk
      · exact hinv
    · have hmiss : truthyOpt (cacheGet st now defaultExpirySeconds
          (profileKey hash resume)) = false := by
        rw [hc]
        exact Bool.not_eq_true _ ▸ htc
      exact hmisscase (extract_search_profile_missing hmiss)

/-- C9 witness: the amended property at an empty cache with no provider
configured — the default profile's non-empty queries list is
returned. -/
theorem claim_C9_witness :
    queriesOK (extract_search_profile idHash parseFail envNone [] 0 "resume").1 = true :=
  (claim_C9_amended idHash parseFail envNone [] 0 "resume" (fun e he _ => absurd he
    (List.not_mem_nil e))).1

/-- C10: the analyzer's cache key is a hash of the plain concatenation
`resume_text + job_description`, so two input pairs with equal
concatenations derive the identical key, and a truthy result cached by
a successful call on one pair is returned verbatim — with zero provider
calls — by a subsequent call on the other pair. -/
theorem claim_C10 : ∀ (hash : String → String) (parse : String → Except String Json)
    (env : ProviderEnv) (st : CacheState) (now now2 : Int) (a b c d t : String)
    (v : Json),
    a ++ b = c ++ d →
    matchKey hash a b = matchKey hash c d
    ∧ (truthyOpt (cacheGet st now defaultExpirySeconds (matchKey hash a b)) = false →
       (env.gemini.isNone && env.openai.isNone) = false →
       (call_ai env (matchPrompt a b)).1 = Except.ok t →
       parse t = Except.ok v →
       truthy v = true →
       now2 - now ≤ defaultExpirySeconds →
       analyze_match hash parse env (analyze_match hash parse env st now a b).2.1 now2 c d
         = (v, (analyze_match hash parse env st now a b).2.1, 0)) := by
  intro hash parse env st now now2 a b c d t v hconcat
  have hkey : matchKey hash a b = matchKey hash c d := by
    unfold matchKey
    rw [hconcat]
  refine ⟨hkey, fun hmiss hflag hcall hparse htr hage => ?_⟩
  have hfirst : analyze_match hash parse env st now a b
      = (v, cacheSet st now (matchKey hash a b) v, (call_ai env (matchPrompt a b)).2) := by
    rw [analyze_match_missing hmiss, analyzeMatchMiss_success hflag hcall hparse]
  rw [hfirst]
  refine analyze_match_hit ?_ htr
  rw [← hkey]
  exact cacheGet_cacheSet_fresh st now now2 defaultExpirySeconds (matchKey hash a b) v hage

/-- C10 witness: the pairs ("ab", "c") and ("a", "bc") share the
concatenation "abc"; after a successful call on the first pair, the
call on the second pair returns the cached value with zero provider
calls. -/
theorem claim_C10_witness :
    analyze_match idHash parseGoodObj envGeminiOnly
      (analyze_match idHash parseGoodObj envGeminiOnly [] 0 "ab" "c").2.1 0 "a" "bc"
      = (Json.obj [("score", Json.num 88)],
         (analyze_match idHash parseGoodObj envGeminiOnly [] 0 "ab" "c").2.1, 0) :=
  (claim_C10 idHash parseGoodObj envGeminiOnly [] 0 0 "ab" "c" "a" "bc" "resp"
    (Json.obj [("score", Json.num 88)]) (by decide)).2 rfl rfl rfl rfl rfl (by decide)

end JobScout
